import Mathlib

/-!
Shallow embedding of the actionsmtp mail-forwarding core (src/src/index.js),
together with theorems settling the specification claims about it.

Strings are modelled as `List Char` (`Str`); JavaScript numbers occurring in
score arithmetic are modelled as rationals (`ℚ`), since every arithmetic step
taken by the program on them is stated exactly by the spec's formulas.
Network effects (DNS lookups, the SpamAssassin round trip, webhook fetches)
are modelled by explicit outcome parameters passed to the embedded functions.
-/

namespace ActionSMTP

/-- Strings as lists of characters. -/
abbrev Str := List Char

/-- Convert a Lean string literal to the `Str` model. -/
def strLit (s : String) : Str := s.data

/-! ### Domain matching (index.js, `matchesDomain`, lines 132-150) -/

/-- Embedding of `matchesDomain(emailDomain, pattern)`:
exact match, universal wildcard `*`, or subdomain wildcard `*.base`
(`emailDomain === baseDomain || emailDomain.endsWith('.' + baseDomain)`). -/
def matchesDomain (emailDomain pattern : Str) : Bool :=
  if pattern = emailDomain then true
  else if pattern = ['*'] then true
  else if (strLit "*.").isPrefixOf pattern then
    let baseDomain := pattern.drop 2
    emailDomain = baseDomain || ('.' :: baseDomain).isSuffixOf emailDomain
  else false

/-! ### Webhook targets and the JSON grouping key (index.js, lines 83-88, 449-453) -/

/-- A configured webhook target: `{url, authUser, authPass}`.
`authPass` is `null` (`none`) when no password is configured. -/
structure Webhook where
  url : Str
  authUser : Str
  authPass : Option Str
deriving DecidableEq, Repr

/-- Lowercase hexadecimal digit, as used by `JSON.stringify` in `\u00XX` escapes. -/
def hexDigit (n : Nat) : Char :=
  if n < 10 then Char.ofNat (48 + n) else Char.ofNat (87 + n)

/-- Numeric value of a hexadecimal digit character. -/
def hexVal (c : Char) : Nat :=
  if c.toNat ≥ 97 then c.toNat - 87 else c.toNat - 48

/-- Escaping of a single character, as performed by `JSON.stringify` on string
values: `"` and `\` are backslash-escaped, the control characters BS, TAB, LF,
FF, CR get their short escapes, other characters below U+0020 get `\u00XX`,
and everything else is emitted verbatim. -/
def escChar (c : Char) : Str :=
  if c = '"' then ['\\', '"']
  else if c = '\\' then ['\\', '\\']
  else if c = Char.ofNat 8 then ['\\', 'b']
  else if c = '\t' then ['\\', 't']
  else if c = '\n' then ['\\', 'n']
  else if c = Char.ofNat 12 then ['\\', 'f']
  else if c = '\r' then ['\\', 'r']
  else if c.toNat < 32 then
    ['\\', 'u', '0', '0', hexDigit (c.toNat / 16), hexDigit (c.toNat % 16)]
  else [c]

/-- `JSON.stringify` escaping of a whole string value. -/
def jsonEscape (s : Str) : Str := (s.map escChar).flatten

/-- A JSON string literal: `"` ++ escaped content ++ `"`. -/
def jsonStrLit (s : Str) : Str := '"' :: (jsonEscape s ++ ['"'])

/-- The grouping key built in `forwardEmail`:
`JSON.stringify({url: webhook.url, authUser: webhook.authUser, authPass: webhook.authPass})`. -/
def webhookKey (w : Webhook) : Str :=
  strLit "\x7b\"url\":" ++ jsonStrLit w.url ++
  strLit ",\"authUser\":" ++ jsonStrLit w.authUser ++
  strLit ",\"authPass\":" ++
  (match w.authPass with
   | none => strLit "null"
   | some p => jsonStrLit p) ++ ['\x7d']

/-- One short escape letter decoded back to its character. -/
def unescShort (d : Char) : Char :=
  if d = '"' then '"'
  else if d = '\\' then '\\'
  else if d = 'b' then Char.ofNat 8
  else if d = 't' then '\t'
  else if d = 'n' then '\n'
  else if d = 'f' then Char.ofNat 12
  else '\r'

/-- Fuel-indexed decoder for the escaped interior of a JSON string literal:
consumes characters up to the closing unescaped `"` and returns the decoded
content with the remainder after that quote. Inverse of `jsonEscape`;
used only to prove that the grouping key is injective. -/
def unescAux : Nat → Str → Option (Str × Str)
  | 0, _ => none
  | _ + 1, [] => none
  | fuel + 1, c :: rest =>
    if c = '"' then some ([], rest)
    else if c = '\\' then
      if rest = [] then none
      else
        let d := rest.headI
        let rest2 := rest.tail
        if d = 'u' then
          if 4 ≤ rest2.length then
            (unescAux fuel (rest2.drop 4)).map
              (fun p =>
                (Char.ofNat (16 * hexVal (rest2.getD 2 ' ') + hexVal (rest2.getD 3 ' ')) :: p.1,
                 p.2))
          else none
        else (unescAux fuel rest2).map (fun p => (unescShort d :: p.1, p.2))
    else (unescAux fuel rest).map (fun p => (c :: p.1, p.2))

/-! ### Recipient grouping in forwardEmail (index.js, lines 440-463) -/

/-- One delivery group: the shared webhook target and the recipients routed
to it (the values of the `recipientsByWebhook` map). -/
structure Group where
  webhook : Webhook
  recipients : List Str
deriving DecidableEq, Repr

/-- Insertion into the insertion-ordered map `recipientsByWebhook`:
on a key hit push the recipient onto that entry, otherwise append a fresh
entry `{webhook, recipients: [addr]}` at the end. -/
def addRecipient : List (Str × Group) → Str → Webhook → Str → List (Str × Group)
  | [], key, w, addr => [(key, ⟨w, [addr]⟩)]
  | (k, g) :: rest, key, w, addr =>
    if k = key then (k, ⟨g.webhook, g.recipients ++ [addr]⟩) :: rest
    else (k, g) :: addRecipient rest key w addr

/-- One iteration of the `for (const recipient of envelope.rcptTo)` loop:
recipients with no entry in `session.webhooksByRecipient` are skipped,
others are inserted under the key `JSON.stringify({url, authUser, authPass})`. -/
def groupStep (byRecipient : Str → Option Webhook)
    (groups : List (Str × Group)) (addr : Str) : List (Str × Group) :=
  match byRecipient addr with
  | none => groups
  | some w => addRecipient groups (webhookKey w) w addr

/-- The `recipientsByWebhook` map built by `forwardEmail` from the
envelope's recipient list. -/
def recipientsByWebhook (byRecipient : Str → Option Webhook)
    (rcptTo : List Str) : List (Str × Group) :=
  rcptTo.foldl (groupStep byRecipient) []

/-- All recipients placed into groups, in group order. -/
def groupedRecipients (gs : List (Str × Group)) : List Str :=
  (gs.map (fun kg => kg.2.recipients)).flatten

/-- Invariant of the grouping fold: keys are distinct, every entry's key is
the JSON key of its webhook, and every recipient stored in an entry resolves
to that entry's webhook. -/
def GroupsInv (f : Str → Option Webhook) (gs : List (Str × Group)) : Prop :=
  (gs.map Prod.fst).Nodup ∧
  ∀ kg ∈ gs, kg.1 = webhookKey kg.2.webhook ∧
    ∀ a ∈ kg.2.recipients, f a = some kg.2.webhook

/-! ### DNSBL reputation check (index.js, `checkDNSBL`, lines 217-270) -/

/-- The two configured reputation zones (`DNSBL_SERVICES`). -/
def DNSBL_SERVICES : List Str :=
  [strLit "zen.spamhaus.org", strLit "bl.spamcop.net"]

/-- Result of the connection-time reputation check. -/
structure DnsblResult where
  isListed : Bool
  listings : List Str
deriving DecidableEq, Repr

/-- `s.split(sep)` on a single-character separator, JavaScript semantics. -/
def splitOnChar (sep : Char) : Str → List Str
  | [] => [[]]
  | c :: rest =>
    if c = sep then [] :: splitOnChar sep rest
    else
      match splitOnChar sep rest with
      | [] => [[c]]
      | l :: ls => (c :: l) :: ls

/-- `parts.join(sep)`, JavaScript semantics. -/
def joinSep (sep : Str) : List Str → Str
  | [] => []
  | [x] => x
  | x :: xs => x ++ sep ++ joinSep sep xs

/-- `ip.split('.').reverse().join('.')`. -/
def reverseIP (ip : Str) : Str := joinSep ['.'] ((splitOnChar '.' ip).reverse)

/-- The code's private-address test:
`ip.startsWith('10.') || ip.startsWith('192.168.') || ip.startsWith('172.') || ip === '127.0.0.1'`. -/
def isPrivateIP (ip : Str) : Bool :=
  (strLit "10.").isPrefixOf ip || (strLit "192.168.").isPrefixOf ip ||
    (strLit "172.").isPrefixOf ip || ip = strLit "127.0.0.1"

/-- The zone lookups issued for an address: none for a private-prefix address,
otherwise one hostname `reversedIP ++ "." ++ zone` per configured zone. -/
def dnsblQueries (ip : Str) : List Str :=
  if isPrivateIP ip then []
  else DNSBL_SERVICES.map (fun z => reverseIP ip ++ '.' :: z)

/-- Embedding of `checkDNSBL`. `resolves` is the DNS oracle: `true` means the
lookup resolved (address listed), `false` covers NXDOMAIN and lookup errors
(both treated as not listed). `timedOut` is `true` when the 3-second
aggregate timeout won the race, in which case the overall catch returns the
clean result. The model is a total function: the promise always resolves. -/
def checkDNSBL (ip : Str) (resolves : Str → Bool) (timedOut : Bool) : DnsblResult :=
  if isPrivateIP ip then ⟨false, []⟩
  else if timedOut then ⟨false, []⟩
  else
    let listed := DNSBL_SERVICES.filter (fun z => resolves (reverseIP ip ++ '.' :: z))
    ⟨decide (0 < listed.length), listed⟩

/-- Decimal value of a digit string. -/
def digitsToNat (ds : Str) : Nat :=
  ds.foldl (fun acc c => 10 * acc + (c.toNat - 48)) 0

/-- Modelled from the spec: one decimal octet of an IPv4 address. -/
def parseOctet (s : Str) : Option Nat :=
  if s ≠ [] && s.all (fun c => c.isDigit) && digitsToNat s ≤ 255 then
    some (digitsToNat s)
  else none

/-- Modelled from the spec: a dotted-quad IPv4 address. -/
def parseIPv4 (ip : Str) : Option (Nat × Nat × Nat × Nat) :=
  match splitOnChar '.' ip with
  | [a, b, c, d] =>
    match parseOctet a, parseOctet b, parseOctet c, parseOctet d with
    | some x, some y, some z, some u => some (x, y, z, u)
    | _, _, _, _ => none
  | _ => none

/-- Modelled from the spec's words "private or loopback range": the RFC 1918
private ranges 10.0.0.0/8, 172.16.0.0/12, 192.168.0.0/16 and the loopback
range 127.0.0.0/8. Used to compare the spec's claim with the code's
prefix-based test. -/
def specPrivateOrLoopback (ip : Str) : Bool :=
  match parseIPv4 ip with
  | none => false
  | some (a, b, _, _) =>
    a = 10 || (a = 172 && 16 ≤ b && b ≤ 31) || (a = 192 && b = 168) || a = 127

/-! ### SpamAssassin client (index.js, `checkSpamAssassin`, lines 272-350) -/

/-- Server-side configuration fields used by the embedded pipeline. -/
structure Config where
  spamCheck : Bool
  spamThreshold : ℚ
  spamReject : ℚ
deriving DecidableEq, Repr

/-- Parsed scorer result `{score, threshold, tests}`. -/
structure SpamResult where
  score : ℚ
  threshold : ℚ
  tests : List Str
deriving DecidableEq, Repr

/-- Outcome of the SpamAssassin round trip as observed by the client:
connection error, the 10-second timeout, or the response bytes read until
the peer closed the connection. -/
inductive SpamdOutcome where
  | connError : SpamdOutcome
  | timeout : SpamdOutcome
  | response : Str → SpamdOutcome

/-- `responseStr.split('\r\n')`. -/
def splitCRLF : Str → List Str
  | [] => [[]]
  | '\r' :: '\n' :: rest => [] :: splitCRLF rest
  | c :: rest =>
    match splitCRLF rest with
    | [] => [[c]]
    | l :: ls => (c :: l) :: ls

/-- Strip a literal prefix, failing when absent. -/
def stripPre (pre s : Str) : Option Str :=
  if pre.isPrefixOf s then some (s.drop pre.length) else none

/-- The numeric token `-?\d+\.?\d*` of the status-line pattern, combined with
`parseFloat` of the captured text (exact decimal value as a rational). -/
def matchNumber (s : Str) : Option (ℚ × Str) :=
  let core : Str → Bool → Option (ℚ × Str) := fun s1 neg =>
    let ds := s1.takeWhile (fun c => c.isDigit)
    let s2 := s1.dropWhile (fun c => c.isDigit)
    if ds = [] then none
    else
      let fpart : Str × Str :=
        match s2 with
        | '.' :: t => (t.takeWhile (fun c => c.isDigit), t.dropWhile (fun c => c.isDigit))
        | _ => ([], s2)
      let v : ℚ := (digitsToNat ds : ℚ) +
        (digitsToNat fpart.1 : ℚ) / ((10 : ℚ) ^ fpart.1.length)
      some ((if neg then -v else v), fpart.2)
  match s with
  | '-' :: t => core t true
  | _ => core s false

/-- The status-line pattern `Spam: (True|False) ; (num) \/ (num)` matched at
the start of the given string, returning the two captured numbers. -/
def matchSpamAt (s : Str) : Option (ℚ × ℚ) := do
  let s1 ← stripPre (strLit "Spam: ") s
  let s2 ← (stripPre (strLit "True") s1).orElse (fun _ => stripPre (strLit "False") s1)
  let s3 ← stripPre (strLit " ; ") s2
  let p1 ← matchNumber s3
  let s5 ← stripPre (strLit " / ") p1.2
  let p2 ← matchNumber s5
  pure (p1.1, p2.1)

/-- Unanchored search for the status-line pattern (`String.prototype.match`). -/
def searchSpam : Str → Option (ℚ × ℚ)
  | [] => none
  | c :: rest =>
    match matchSpamAt (c :: rest) with
    | some r => some r
    | none => searchSpam rest

/-- JavaScript `String.prototype.trim` whitespace. -/
def isJsSpace (c : Char) : Bool :=
  c = ' ' || c = '\t' || c = '\n' || c = '\r' || c = Char.ofNat 11 || c = Char.ofNat 12

/-- `t.trim()`. -/
def trimStr (s : Str) : Str :=
  ((s.dropWhile isJsSpace).reverse.dropWhile isJsSpace).reverse

/-- Parsing of the scorer response performed in the `end` handler:
the first line starting with `Spam:` is matched against the status pattern
(score defaults to `0`, threshold to the configured flag threshold); the
first comma-containing line is split, trimmed and filtered into the
fired-test list. -/
def parseSpamdResponse (cfg : Config) (resp : Str) : SpamResult :=
  let lines := splitCRLF resp
  let spamLine := (lines.find? (fun l => (strLit "Spam:").isPrefixOf l)).getD []
  let m := searchSpam spamLine
  let score : ℚ := match m with | some p => p.1 | none => 0
  let threshold : ℚ := match m with | some p => p.2 | none => cfg.spamThreshold
  let testsLine := (lines.find? (fun l => l.contains ',')).getD []
  let tests : List Str :=
    if testsLine = [] then []
    else ((splitOnChar ',' testsLine).map trimStr).filter (fun t => t ≠ [])
  ⟨score, threshold, tests⟩

/-- Embedding of `checkSpamAssassin`: a total function of the round-trip
outcome — it always resolves, never rejects. Connection errors and the
timeout resolve with the degraded `{score: 0, tests: []}` result. -/
def checkSpamAssassin (cfg : Config) (rawEmail : Str) (outcome : SpamdOutcome) :
    SpamResult :=
  match outcome with
  | .connError => ⟨0, cfg.spamThreshold, []⟩
  | .timeout => ⟨0, cfg.spamThreshold, []⟩
  | .response bytes => parseSpamdResponse cfg bytes

/-! ### Score composition (index.js, onData lines 624-628) -/

/-- The DNSBL penalty applied in `onData`:
`if (session.dnsblResult && session.dnsblResult.isListed) { score += 3.0 * listings.length; tests.push(...) }`. -/
def applyDnsblPenalty (spam : SpamResult) (d : Option DnsblResult) : SpamResult :=
  match d with
  | some dr =>
    if dr.isListed then
      { spam with
        score := spam.score + 3 * (dr.listings.length : ℚ),
        tests := spam.tests ++
          [strLit "DNSBL_LISTED(" ++ joinSep [','] dr.listings ++ [')']] }
    else spam
  | none => spam

/-- Number of zones the address counted as listed on. -/
def listedZoneCount (d : Option DnsblResult) : Nat :=
  match d with
  | some dr => if dr.isListed then dr.listings.length else 0
  | none => 0

/-! ### Header augmentation (index.js, `addSpamHeaders`, lines 352-377) -/

/-- The header/body separator `\r\n\r\n`. -/
def crlfcrlf : Str := ['\r', '\n', '\r', '\n']

/-- `emailStr.indexOf('\r\n\r\n')`, as an option instead of `-1`. -/
def findSep : Str → Option Nat
  | [] => none
  | c :: rest =>
    if crlfcrlf.isPrefixOf (c :: rest) then some 0
    else (findSep rest).map (fun n => n + 1)

/-- Decimal rendering of a natural number. -/
def natToStr (n : Nat) : Str := (toString n).data

/-- Fractional decimal digits of `r / d` (models the decimal rendering a
JavaScript template literal gives the exact decimal scores arising here). -/
def fracDigits : Nat → Nat → Nat → Str
  | 0, _, _ => []
  | _ + 1, 0, _ => []
  | fuel + 1, r, d =>
    Char.ofNat (48 + (10 * r) / d) :: fracDigits fuel ((10 * r) % d) d

/-- Decimal rendering of a rational score (as interpolated into the headers). -/
def ratToStr (q : ℚ) : Str :=
  (if q < 0 then ['-'] else []) ++ natToStr (q.num.natAbs / q.den) ++
    (if q.num.natAbs % q.den = 0 then []
     else '.' :: fracDigits 12 (q.num.natAbs % q.den) q.den)

/-- The inserted header lines: `X-Spam-Score`, `X-Spam-Status`,
`X-Spam-Tests`, plus `X-Spam-DNSBL: Listed on ...` only when listed. -/
def spamHeaderLines (cfg : Config) (d : DnsblResult) (s : SpamResult) : List Str :=
  [strLit "X-Spam-Score: " ++ ratToStr s.score,
   strLit "X-Spam-Status: " ++
     (if cfg.spamThreshold ≤ s.score then strLit "Yes" else strLit "No") ++
     strLit ", score=" ++ ratToStr s.score ++ strLit " required=" ++
     ratToStr cfg.spamThreshold,
   strLit "X-Spam-Tests: " ++ joinSep (strLit ", ") s.tests] ++
  (if d.isListed then
    [strLit "X-Spam-DNSBL: Listed on " ++ joinSep (strLit ", ") d.listings]
   else [])

/-- Embedding of `addSpamHeaders`: the message is returned unchanged when it
has no `\r\n\r\n` separator; otherwise the new header lines are spliced in
right before the separator:
`substring(0, headerEnd) + '\r\n' + headers.join('\r\n') + '\r\n' + substring(headerEnd)`. -/
def addSpamHeaders (cfg : Config) (rawEmail : Str) (dnsblResult : DnsblResult)
    (spamResult : SpamResult) : Str :=
  match findSep rawEmail with
  | none => rawEmail
  | some i =>
    rawEmail.take i ++ strLit "\r\n" ++
      joinSep (strLit "\r\n") (spamHeaderLines cfg dnsblResult spamResult) ++
      strLit "\r\n" ++ rawEmail.drop i

/-! ### Delivery and session outcome (index.js, lines 379-483, 576-668) -/

/-- The session state consumed by the data stage. -/
structure Session where
  dnsblResult : Option DnsblResult
  webhooksByRecipient : Str → Option Webhook

/-- The SMTP envelope. -/
structure Envelope where
  mailFrom : Option Str
  rcptTo : List Str

/-- Outcome of one webhook fetch: an HTTP response (any status), connection
refused, the request timeout, or another transport error. -/
inductive FetchOutcome where
  | response : Nat → Str → FetchOutcome
  | connRefused : FetchOutcome
  | netTimeout : FetchOutcome
  | otherError : Str → FetchOutcome

/-- `response.ok`: status in the 2xx range. -/
def is2xx (o : FetchOutcome) : Bool :=
  match o with
  | .response st _ => decide (200 ≤ st ∧ st < 300)
  | _ => false

/-- Embedding of `forwardToWebhook`: a 2xx response returns normally, a
non-2xx response throws `HTTP <status>: <statusText>`, connection refused
throws the node-fetch message `request to <url> failed, reason: connect
ECONNREFUSED ...`, a request timeout throws the node-fetch message
`network timeout at: <url>`. -/
def forwardToWebhook (w : Webhook) (o : FetchOutcome) : Except Str Unit :=
  match o with
  | .response st stext =>
    if 200 ≤ st ∧ st < 300 then .ok ()
    else .error (strLit "HTTP " ++ natToStr st ++ strLit ": " ++ stext)
  | .connRefused =>
    .error (strLit "request to " ++ w.url ++
      strLit " failed, reason: connect ECONNREFUSED")
  | .netTimeout => .error (strLit "network timeout at: " ++ w.url)
  | .otherError m => .error m

/-- `Promise.all` aggregation: `ok` when every request succeeded, otherwise
the error of the first failing request (the surfaced rejection). -/
def firstErr : List (Except Str Unit) → Except Str Unit
  | [] => .ok ()
  | .ok () :: rest => firstErr rest
  | .error m :: _ => .error m

/-- Aggregate result of `forwardEmail` together with the requests issued. -/
structure ForwardOutcome where
  result : Except Str Unit
  issued : List Webhook

/-- Embedding of `forwardEmail`: envelope validation, grouping by the JSON
key, one request per group, `Promise.all` aggregation. All group requests
are issued; the first failure is the surfaced error. -/
def forwardEmail (rawEmail : Str) (env : Envelope) (sess : Session)
    (fetchO : Webhook → FetchOutcome) : ForwardOutcome :=
  match env.mailFrom with
  | none => ⟨.error (strLit "Invalid sender address"), []⟩
  | some addr =>
    if addr = [] then ⟨.error (strLit "Invalid sender address"), []⟩
    else if env.rcptTo = [] then ⟨.error (strLit "No recipients"), []⟩
    else
      let groups := recipientsByWebhook sess.webhooksByRecipient env.rcptTo
      let ws := groups.map (fun kg => kg.2.webhook)
      ⟨firstErr (ws.map (fun w => forwardToWebhook w (fetchO w))), ws⟩

/-- The SMTP reply handed to the `callback`: accept, or a coded rejection. -/
inductive SmtpReply where
  | accept : SmtpReply
  | reject : Nat → Str → SmtpReply
deriving DecidableEq, Repr

/-- `haystack.includes(needle)`, JavaScript semantics (case-sensitive). -/
def strContains : Str → Str → Bool
  | [], sub => sub.isPrefixOf []
  | c :: t, sub => sub.isPrefixOf (c :: t) || strContains t sub

/-- The catch-block classification in `onData`: messages containing
`timeout` map to `451 Temporary failure, please retry`, else messages
containing `HTTP` map to `451 Webhook temporarily unavailable`, anything
else maps to `550 Failed to process message`. -/
def classifyForwardError (m : Str) : SmtpReply :=
  if strContains m (strLit "timeout") then
    .reject 451 (strLit "Temporary failure, please retry")
  else if strContains m (strLit "HTTP") then
    .reject 451 (strLit "Webhook temporarily unavailable")
  else .reject 550 (strLit "Failed to process message")

/-- Observable result of the data stage: the reply to the sender, how many
scorer round trips ran, the buffer handed to `forwardEmail` (if reached),
and the webhooks to which delivery requests were issued. -/
structure DataResult where
  reply : SmtpReply
  scorerCalls : Nat
  forwarded : Option Str
  deliveries : List Webhook

/-- The forward-and-classify tail of `onData`. -/
def dispatchStage (rawEmail : Str) (env : Envelope) (sess : Session)
    (fetchO : Webhook → FetchOutcome) (scorerCalls : Nat) : DataResult :=
  let fo := forwardEmail rawEmail env sess fetchO
  match fo.result with
  | .ok _ => ⟨.accept, scorerCalls, some rawEmail, fo.issued⟩
  | .error m => ⟨classifyForwardError m, scorerCalls, some rawEmail, fo.issued⟩

/-- Embedding of the `onData` stream-end handler: empty-body and
missing-separator rejections, the optional spam stage (scorer round trip,
DNSBL penalty, reject-threshold check, header augmentation), then dispatch. -/
def onData (cfg : Config) (sess : Session) (env : Envelope) (rawEmail : Str)
    (spamdO : SpamdOutcome) (fetchO : Webhook → FetchOutcome) : DataResult :=
  if rawEmail = [] then ⟨.reject 550 (strLit "Empty message"), 0, none, []⟩
  else if (findSep rawEmail).isNone then
    ⟨.reject 550 (strLit "Malformed message: missing headers"), 0, none, []⟩
  else if cfg.spamCheck then
    let spamResult :=
      applyDnsblPenalty (checkSpamAssassin cfg rawEmail spamdO) sess.dnsblResult
    if cfg.spamReject ≤ spamResult.score then
      ⟨.reject 550 (strLit "Message rejected as spam"), 1, none, []⟩
    else
      dispatchStage
        (addSpamHeaders cfg rawEmail (sess.dnsblResult.getD ⟨false, []⟩) spamResult)
        env sess fetchO 1
  else dispatchStage rawEmail env sess fetchO 0

/-- Result of the connect stage: whether the connection was accepted and
which reputation lookups were issued. -/
structure ConnectResult where
  accepted : Bool
  queries : List Str
deriving DecidableEq, Repr

/-- Embedding of `onConnect`: with spam checking enabled the DNSBL check
runs and a listed address is rejected with `550 IP address blacklisted`;
with spam checking disabled the connection is accepted with no lookups. -/
def onConnect (cfg : Config) (remoteAddress : Str) (resolves : Str → Bool)
    (timedOut : Bool) : ConnectResult :=
  if cfg.spamCheck then
    if (checkDNSBL remoteAddress resolves timedOut).isListed then
      ⟨false, dnsblQueries remoteAddress⟩
    else ⟨true, dnsblQueries remoteAddress⟩
  else ⟨true, []⟩

/-! ### Claims C6 and C3: scorer fail-open and score composition -/

/-- Demo configuration used by concrete witnesses. -/
def cfgDemo : Config := ⟨true, 5, 10⟩

/-- Demo scorer result and reputation result used by the C3 witness. -/
def spamDemo : SpamResult := ⟨2, 5, [strLit "T_A"]⟩

/-- Demo listed reputation result. -/
def dnsblDemo : DnsblResult := ⟨true, [strLit "zen.spamhaus.org"]⟩

/-- Demo webhook target shared by both demo recipients. -/
def grpW : Webhook := ⟨strLit "https://h/w", strLit "u", some (strLit "p")⟩

/-- Demo recipient-to-target mapping. -/
def grpF : Str → Option Webhook := fun a =>
  if a = strLit "a@x.com" then some grpW
  else if a = strLit "b@x.com" then some grpW
  else none

/-- Demo accepted-recipient list. -/
def grpRs : List Str := [strLit "a@x.com", strLit "b@x.com"]

/-- Session whose address was listed on four zones (penalty `12`). -/
def sessSpam : Session :=
  ⟨some ⟨true, [strLit "z1", strLit "z2", strLit "z3", strLit "z4"]⟩,
   fun _ => none⟩

/-- Configuration with spam checking disabled. -/
def cfgOff : Config := ⟨false, 5, 10⟩

/-- Webhook target of the demo route (defaults: user `actionmailbox`,
no password). -/
def w550 : Webhook :=
  ⟨strLit "http://localhost:3000/webhook", strLit "actionmailbox", none⟩

/-- Session routing `a@example.com` to the demo target. -/
def sess550 : Session :=
  ⟨none, fun a => if a = strLit "a@example.com" then some w550 else none⟩

/-- Envelope with one accepted recipient. -/
def env550 : Envelope :=
  ⟨some (strLit "s@example.com"), [strLit "a@example.com"]⟩

/-- A well-formed demo message. -/
def raw550 : Str := strLit "A: 1\r\n\r\nBody"

theorem matchesDomain_self (d : Str) : matchesDomain d d = true := by
  simp [matchesDomain]

theorem matchesDomain_star (d : Str) : matchesDomain d ['*'] = true := by
  by_cases h : (['*'] : Str) = d <;> simp [matchesDomain, h]

theorem matchesDomain_sub (d base : Str) :
    matchesDomain d ('*' :: '.' :: base) = true ↔
      d = base ∨ ('.' :: base).isSuffixOf d = true := by
  by_cases h1 : ('*' :: '.' :: base : Str) = d
  · subst h1
    rw [matchesDomain_self]
    simp only [true_iff]
    right
    rw [List.isSuffixOf_iff_suffix]
    exact ⟨['*'], rfl⟩
  · unfold matchesDomain
    rw [if_neg h1]
    have h2 : ('*' :: '.' :: base : Str) ≠ ['*'] := by simp
    rw [if_neg h2]
    have h3 : (strLit "*.").isPrefixOf ('*' :: '.' :: base) = true := by
      simp [strLit, List.isPrefixOf]
    rw [if_pos h3]
    simp only [List.drop_succ_cons, List.drop_zero, Bool.or_eq_true, decide_eq_true_eq]

theorem matchesDomain_no_wildcard (d p : Str) (hw : '*' ∉ p) :
    matchesDomain d p = true ↔ p = d := by
  unfold matchesDomain
  by_cases h1 : p = d
  · simp [h1]
  · rw [if_neg h1]
    have h2 : p ≠ ['*'] := by
      intro h; subst h; exact hw (by simp)
    rw [if_neg h2]
    have h3 : (strLit "*.").isPrefixOf p = false := by
      cases p with
      | nil => rfl
      | cons c t =>
        have hc : c ≠ '*' := fun h => hw (h ▸ List.mem_cons_self c t)
        simp [strLit, List.isPrefixOf, Ne.symm hc]
    rw [h3]
    simp [h1]

/-- C4: `matchesDomain(d, d)` is true; `matchesDomain(d, "*")` is true;
`matchesDomain(d, "*.base")` is true iff `d = base` or `d` ends with `".base"`;
and a pattern containing no wildcard matches only the identical literal. -/
theorem claim_C4_matchesDomain (d : Str) :
    matchesDomain d d = true ∧
    matchesDomain d ['*'] = true ∧
    (∀ base : Str, matchesDomain d ('*' :: '.' :: base) = true ↔
      d = base ∨ ('.' :: base).isSuffixOf d = true) ∧
    (∀ p : Str, '*' ∉ p → (matchesDomain d p = true ↔ p = d)) :=
  ⟨matchesDomain_self d, matchesDomain_star d,
   fun base => matchesDomain_sub d base,
   fun p hw => matchesDomain_no_wildcard d p hw⟩

/-- Witness: C4 instantiated at the concrete domain `"mail.example.com"`,
checking the subdomain-wildcard clause at base `"example.com"` and the
literal clause at pattern `"other.com"`. -/
theorem claim_C4_matchesDomain_witness :
    matchesDomain (strLit "mail.example.com") (strLit "mail.example.com") = true ∧
    matchesDomain (strLit "mail.example.com") (strLit "*.example.com") = true ∧
    matchesDomain (strLit "mail.example.com") (strLit "other.com") = false := by
  have h := claim_C4_matchesDomain (strLit "mail.example.com")
  refine ⟨h.1, ?_, ?_⟩
  · exact (h.2.2.1 (strLit "example.com")).mpr (Or.inr (by decide))
  · have hw : '*' ∉ strLit "other.com" := by decide
    have := h.2.2.2 (strLit "other.com") hw
    by_cases hb : matchesDomain (strLit "mail.example.com") (strLit "other.com") = true
    · exact absurd (this.mp hb) (by decide)
    · simpa using hb

theorem hexVal_hexDigit : ∀ n, n < 16 → hexVal (hexDigit n) = n := by decide

theorem unescAux_quote (f : Nat) (t : Str) :
    unescAux (f + 1) ('"' :: t) = some ([], t) := by
  simp [unescAux]

theorem unescAux_u (f : Nat) (a b h l : Char) (t : Str) :
    unescAux (f + 1) ('\\' :: 'u' :: a :: b :: h :: l :: t) =
      (unescAux f t).map
        (fun p => (Char.ofNat (16 * hexVal h + hexVal l) :: p.1, p.2)) := by
  simp [unescAux]

theorem unescAux_esc (f : Nat) (d : Char) (t : Str) (hd : d ≠ 'u') :
    unescAux (f + 1) ('\\' :: d :: t) =
      (unescAux f t).map (fun p => (unescShort d :: p.1, p.2)) := by
  simp [unescAux, hd]

theorem unescAux_plain (f : Nat) (c : Char) (t : Str)
    (h1 : c ≠ '"') (h2 : c ≠ '\\') :
    unescAux (f + 1) (c :: t) =
      (unescAux f t).map (fun p => (c :: p.1, p.2)) := by
  simp [unescAux, h1, h2]

/-- Decoding inverts escaping: one escaped character in front of a stream
decodes back to that character, consuming one unit of fuel. -/
theorem unescAux_escChar (f : Nat) (c : Char) (t : Str) :
    unescAux (f + 1) (escChar c ++ t) =
      (unescAux f t).map (fun p => (c :: p.1, p.2)) := by
  by_cases h1 : c = '"'
  · subst h1
    rw [show escChar '"' = ['\\', '"'] from rfl]
    rw [show (['\\', '"'] : Str) ++ t = '\\' :: '"' :: t from rfl]
    rw [unescAux_esc f _ t (by decide)]
    rfl
  by_cases h2 : c = '\\'
  · subst h2
    rw [show escChar '\\' = ['\\', '\\'] from rfl]
    rw [show (['\\', '\\'] : Str) ++ t = '\\' :: '\\' :: t from rfl]
    rw [unescAux_esc f _ t (by decide)]
    rfl
  by_cases h3 : c = Char.ofNat 8
  · subst h3
    rw [show escChar (Char.ofNat 8) = ['\\', 'b'] from rfl]
    rw [show (['\\', 'b'] : Str) ++ t = '\\' :: 'b' :: t from rfl]
    rw [unescAux_esc f _ t (by decide)]
    rfl
  by_cases h4 : c = '\t'
  · subst h4
    rw [show escChar '\t' = ['\\', 't'] from rfl]
    rw [show (['\\', 't'] : Str) ++ t = '\\' :: 't' :: t from rfl]
    rw [unescAux_esc f _ t (by decide)]
    rfl
  by_cases h5 : c = '\n'
  · subst h5
    rw [show escChar '\n' = ['\\', 'n'] from rfl]
    rw [show (['\\', 'n'] : Str) ++ t = '\\' :: 'n' :: t from rfl]
    rw [unescAux_esc f _ t (by decide)]
    rfl
  by_cases h6 : c = Char.ofNat 12
  · subst h6
    rw [show escChar (Char.ofNat 12) = ['\\', 'f'] from rfl]
    rw [show (['\\', 'f'] : Str) ++ t = '\\' :: 'f' :: t from rfl]
    rw [unescAux_esc f _ t (by decide)]
    rfl
  by_cases h7 : c = '\r'
  · subst h7
    rw [show escChar '\r' = ['\\', 'r'] from rfl]
    rw [show (['\\', 'r'] : Str) ++ t = '\\' :: 'r' :: t from rfl]
    rw [unescAux_esc f _ t (by decide)]
    rfl
  by_cases h8 : c.toNat < 32
  · have he : escChar c =
        ['\\', 'u', '0', '0', hexDigit (c.toNat / 16), hexDigit (c.toNat % 16)] := by
      unfold escChar
      rw [if_neg h1, if_neg h2, if_neg h3, if_neg h4, if_neg h5, if_neg h6,
        if_neg h7, if_pos h8]
    rw [he, List.cons_append, List.cons_append, List.cons_append,
      List.cons_append, List.cons_append, List.singleton_append, unescAux_u]
    have hdiv : c.toNat / 16 < 16 := Nat.div_lt_of_lt_mul (by omega)
    have hmod : c.toNat % 16 < 16 := Nat.mod_lt _ (by omega)
    rw [hexVal_hexDigit _ hdiv, hexVal_hexDigit _ hmod, Nat.div_add_mod,
      Char.ofNat_toNat]
  · have he : escChar c = [c] := by
      unfold escChar
      rw [if_neg h1, if_neg h2, if_neg h3, if_neg h4, if_neg h5, if_neg h6,
        if_neg h7, if_neg h8]
    rw [he, List.singleton_append, unescAux_plain f c t h1 h2]

/-- Decoding a fully escaped string followed by its closing quote recovers
the original string and the remainder, given enough fuel. -/
theorem unescAux_jsonEscape (s : Str) : ∀ (f : Nat) (t : Str), s.length < f →
    unescAux f (jsonEscape s ++ '"' :: t) = some (s, t) := by
  induction s with
  | nil =>
    intro f t hf
    match f, hf with
    | f + 1, _ =>
      rw [show jsonEscape [] ++ '"' :: t = '"' :: t from rfl, unescAux_quote]
  | cons c cs ih =>
    intro f t hf
    match f, hf with
    | f + 1, hf =>
      rw [show jsonEscape (c :: cs) = escChar c ++ jsonEscape cs from rfl,
        List.append_assoc, unescAux_escChar,
        ih f t (by simpa using Nat.lt_of_succ_lt_succ hf)]
      rfl

theorem escChar_length_pos (c : Char) : 1 ≤ (escChar c).length := by
  unfold escChar
  split_ifs <;> simp

theorem length_le_jsonEscape (s : Str) : s.length ≤ (jsonEscape s).length := by
  induction s with
  | nil => simp [jsonEscape]
  | cons c cs ih =>
    rw [show jsonEscape (c :: cs) = escChar c ++ jsonEscape cs from rfl]
    rw [List.length_append, List.length_cons]
    have := escChar_length_pos c
    omega

/-- Cancellation for escaped strings embedded in a larger equal context. -/
theorem jsonEscape_cancel {s1 s2 t1 t2 : Str}
    (h : jsonEscape s1 ++ '"' :: t1 = jsonEscape s2 ++ '"' :: t2) :
    s1 = s2 ∧ t1 = t2 := by
  have hlen : (jsonEscape s1 ++ '"' :: t1).length =
      (jsonEscape s2 ++ '"' :: t2).length := congrArg List.length h
  have hf1 : s1.length < (jsonEscape s2 ++ '"' :: t2).length := by
    rw [← hlen, List.length_append, List.length_cons]
    have := length_le_jsonEscape s1
    omega
  have hf2 : s2.length < (jsonEscape s2 ++ '"' :: t2).length := by
    rw [List.length_append, List.length_cons]
    have := length_le_jsonEscape s2
    omega
  have e1 := unescAux_jsonEscape s1 ((jsonEscape s2 ++ '"' :: t2).length) t1 hf1
  have e2 := unescAux_jsonEscape s2 ((jsonEscape s2 ++ '"' :: t2).length) t2 hf2
  rw [h, e2] at e1
  have h2 := Option.some.inj e1
  exact ⟨(congrArg Prod.fst h2).symm, (congrArg Prod.snd h2).symm⟩

/-- `webhookKey` rewritten in fully right-associated form, exposing the
escaped segments. -/
theorem webhookKey_shape (w : Webhook) :
    webhookKey w =
      strLit "\x7b\"url\":" ++ ('"' :: (jsonEscape w.url ++ '"' ::
        (strLit ",\"authUser\":" ++ ('"' :: (jsonEscape w.authUser ++ '"' ::
          (strLit ",\"authPass\":" ++
            ((match w.authPass with
              | none => strLit "null"
              | some p => '"' :: (jsonEscape p ++ ['"'])) ++ ['\x7d']))))))) := by
  cases hp : w.authPass with
  | none => simp [webhookKey, jsonStrLit, hp]
  | some p => simp [webhookKey, jsonStrLit, hp]

/-- The JSON grouping key is injective: equal keys force field-wise equal
`{url, authUser, authPass}` tuples. -/
theorem webhookKey_injective {w1 w2 : Webhook}
    (h : webhookKey w1 = webhookKey w2) : w1 = w2 := by
  rw [webhookKey_shape, webhookKey_shape] at h
  have h1 := List.append_cancel_left h
  injection h1 with _ h2
  obtain ⟨hu, h3⟩ := jsonEscape_cancel h2
  have h4 := List.append_cancel_left h3
  injection h4 with _ h5
  obtain ⟨ha, h6⟩ := jsonEscape_cancel h5
  have h7 := List.append_cancel_left h6
  have h8 := List.append_cancel_right h7
  obtain ⟨u1, a1, p1⟩ := w1
  obtain ⟨u2, a2, p2⟩ := w2
  simp only at hu ha h8
  cases p1 with
  | none =>
    cases p2 with
    | none => simp [hu, ha]
    | some q2 => exact absurd h8 (by simp [strLit])
  | some q1 =>
    cases p2 with
    | none => exact absurd h8 (by simp [strLit])
    | some q2 =>
      injection h8 with _ h9
      obtain ⟨hq, _⟩ := jsonEscape_cancel h9
      simp [hu, ha, hq]

theorem groupedRecipients_addRecipient (gs : List (Str × Group))
    (key : Str) (w : Webhook) (a : Str) :
    List.Perm (groupedRecipients (addRecipient gs key w a))
      (groupedRecipients gs ++ [a]) := by
  induction gs with
  | nil => simp [addRecipient, groupedRecipients]
  | cons kg rest ih =>
    obtain ⟨k, g⟩ := kg
    by_cases hk : k = key
    · simp only [addRecipient, if_pos hk, groupedRecipients, List.map_cons,
        List.flatten_cons]
      rw [List.append_assoc, List.append_assoc]
      exact List.Perm.append_left _ List.perm_append_comm
    · simp only [addRecipient, if_neg hk, groupedRecipients, List.map_cons,
        List.flatten_cons]
      rw [List.append_assoc]
      exact List.Perm.append_left _ ih

theorem groupedRecipients_fold (f : Str → Option Webhook) (rs : List Str) :
    ∀ gs : List (Str × Group),
      List.Perm (groupedRecipients (rs.foldl (groupStep f) gs))
        (groupedRecipients gs ++ rs.filter (fun a => (f a).isSome)) := by
  induction rs with
  | nil => intro gs; simp
  | cons a rs ih =>
    intro gs
    rw [List.foldl_cons]
    cases hfa : f a with
    | none =>
      have hstep : groupStep f gs a = gs := by simp [groupStep, hfa]
      rw [hstep, List.filter_cons_of_neg (by simp [hfa])]
      exact ih gs
    | some w =>
      have hstep : groupStep f gs a = addRecipient gs (webhookKey w) w a := by
        simp [groupStep, hfa]
      rw [hstep, List.filter_cons_of_pos (by simp [hfa])]
      have h1 := ih (addRecipient gs (webhookKey w) w a)
      have h2 := List.Perm.append_right (rs.filter (fun a => (f a).isSome))
        (groupedRecipients_addRecipient gs (webhookKey w) w a)
      have h3 : (groupedRecipients gs ++ [a]) ++ rs.filter (fun a => (f a).isSome)
          = groupedRecipients gs ++ (a :: rs.filter (fun a => (f a).isSome)) := by
        rw [List.append_assoc]
        rfl
      exact h3 ▸ (h1.trans h2)

theorem keys_addRecipient (gs : List (Str × Group)) (key : Str) (w : Webhook)
    (a : Str) :
    (addRecipient gs key w a).map Prod.fst =
      if key ∈ gs.map Prod.fst then gs.map Prod.fst
      else gs.map Prod.fst ++ [key] := by
  induction gs with
  | nil => simp [addRecipient]
  | cons kg rest ih =>
    obtain ⟨k, g⟩ := kg
    by_cases hk : k = key
    · subst hk
      rw [show addRecipient ((k, g) :: rest) k w a
          = (k, ⟨g.webhook, g.recipients ++ [a]⟩) :: rest from by
        rw [addRecipient, if_pos rfl]]
      rw [List.map_cons, List.map_cons, if_pos (List.mem_cons_self _ _)]
    · rw [show addRecipient ((k, g) :: rest) key w a
          = (k, g) :: addRecipient rest key w a from by
        rw [addRecipient, if_neg hk]]
      rw [List.map_cons, List.map_cons, ih]
      by_cases hmem : key ∈ rest.map Prod.fst
      · rw [if_pos hmem, if_pos (List.mem_cons_of_mem _ hmem)]
      · rw [if_neg hmem, if_neg (by
          intro hc
          rcases List.mem_cons.mp hc with h | h
          · exact hk h.symm
          · exact hmem h)]
        rfl

theorem inv_addRecipient {f : Str → Option Webhook} {gs : List (Str × Group)}
    {a : Str} {w : Webhook} (hinv : GroupsInv f gs) (hfa : f a = some w) :
    GroupsInv f (addRecipient gs (webhookKey w) w a) := by
  obtain ⟨hnodup, hmem⟩ := hinv
  constructor
  · rw [keys_addRecipient]
    by_cases hk : webhookKey w ∈ gs.map Prod.fst
    · rw [if_pos hk]
      exact hnodup
    · rw [if_neg hk, List.nodup_append]
      refine ⟨hnodup, List.nodup_singleton _, ?_⟩
      intro x hx hy
      rw [List.mem_singleton] at hy
      subst hy
      exact hk hx
  · clear hnodup
    induction gs with
    | nil =>
      intro kg hkg
      simp only [addRecipient, List.mem_singleton] at hkg
      subst hkg
      exact ⟨rfl, by intro b hb; simp only [List.mem_singleton] at hb; exact hb ▸ hfa⟩
    | cons kg0 rest ih =>
      obtain ⟨k, g⟩ := kg0
      by_cases hk : k = webhookKey w
      · simp only [addRecipient, if_pos hk]
        intro kg hkg
        rcases List.mem_cons.mp hkg with heq | htail
        · subst heq
          have hg := hmem (k, g) (List.mem_cons_self _ _)
          refine ⟨hg.1, ?_⟩
          intro b hb
          rcases List.mem_append.mp hb with hbold | hbnew
          · exact hg.2 b hbold
          · simp only [List.mem_singleton] at hbnew
            subst hbnew
            have hkeq : webhookKey w = webhookKey g.webhook := hk ▸ hg.1
            rw [hfa, webhookKey_injective hkeq]
        · exact hmem kg (List.mem_cons_of_mem _ htail)
      · simp only [addRecipient, if_neg hk]
        intro kg hkg
        rcases List.mem_cons.mp hkg with heq | htail
        · exact heq ▸ hmem (k, g) (List.mem_cons_self _ _)
        · exact ih (fun kg' hkg' => hmem kg' (List.mem_cons_of_mem _ hkg')) kg htail

theorem inv_fold {f : Str → Option Webhook} (rs : List Str) :
    ∀ gs : List (Str × Group), GroupsInv f gs →
      GroupsInv f (rs.foldl (groupStep f) gs) := by
  induction rs with
  | nil => intro gs h; exact h
  | cons a rs ih =>
    intro gs h
    rw [List.foldl_cons]
    cases hfa : f a with
    | none => exact ih _ (by simpa [groupStep, hfa] using h)
    | some w =>
      refine ih _ ?_
      have := inv_addRecipient h hfa
      simpa [groupStep, hfa] using this

theorem inv_recipientsByWebhook (f : Str → Option Webhook) (rs : List Str) :
    GroupsInv f (recipientsByWebhook f rs) :=
  inv_fold rs [] ⟨List.nodup_nil, by intro kg h; cases h⟩

theorem mem_addRecipient_self (gs : List (Str × Group)) (key : Str)
    (w : Webhook) (a : Str) :
    ∃ kg ∈ addRecipient gs key w a, kg.1 = key ∧ a ∈ kg.2.recipients := by
  induction gs with
  | nil => exact ⟨(key, ⟨w, [a]⟩), by simp [addRecipient]⟩
  | cons kg0 rest ih =>
    obtain ⟨k, g⟩ := kg0
    by_cases hk : k = key
    · refine ⟨(k, ⟨g.webhook, g.recipients ++ [a]⟩), ?_, hk, by simp⟩
      simp [addRecipient, if_pos hk]
    · obtain ⟨kg, hmem, hkg⟩ := ih
      exact ⟨kg, by simp [addRecipient, if_neg hk, hmem], hkg⟩

theorem mem_addRecipient_mono {gs : List (Str × Group)} {kg : Str × Group}
    (hkg : kg ∈ gs) {a : Str} (ha : a ∈ kg.2.recipients)
    (key : Str) (w : Webhook) (b : Str) :
    ∃ kg' ∈ addRecipient gs key w b, kg'.1 = kg.1 ∧ a ∈ kg'.2.recipients := by
  induction gs with
  | nil => cases hkg
  | cons kg0 rest ih =>
    obtain ⟨k, g⟩ := kg0
    by_cases hk : k = key
    · rcases List.mem_cons.mp hkg with heq | htail
      · subst heq
        exact ⟨(k, ⟨g.webhook, g.recipients ++ [b]⟩),
          by simp [addRecipient, if_pos hk], rfl, List.mem_append_left _ ha⟩
      · exact ⟨kg, by simp [addRecipient, if_pos hk, htail], rfl, ha⟩
    · rcases List.mem_cons.mp hkg with heq | htail
      · subst heq
        exact ⟨(k, g), by simp [addRecipient, if_neg hk], rfl, ha⟩
      · obtain ⟨kg', hmem, hkey, ha'⟩ := ih htail
        exact ⟨kg', by simp [addRecipient, if_neg hk, hmem], hkey, ha'⟩

theorem mem_fold_mono {f : Str → Option Webhook} (rs : List Str) :
    ∀ gs : List (Str × Group), ∀ kg ∈ gs, ∀ a ∈ kg.2.recipients,
      ∃ kg' ∈ rs.foldl (groupStep f) gs, kg'.1 = kg.1 ∧ a ∈ kg'.2.recipients := by
  induction rs with
  | nil => intro gs kg hkg a ha; exact ⟨kg, hkg, rfl, ha⟩
  | cons b rs ih =>
    intro gs kg hkg a ha
    rw [List.foldl_cons]
    cases hfb : f b with
    | none =>
      have hstep : groupStep f gs b = gs := by simp [groupStep, hfb]
      rw [hstep]
      exact ih gs kg hkg a ha
    | some w =>
      have hstep : groupStep f gs b = addRecipient gs (webhookKey w) w b := by
        simp [groupStep, hfb]
      rw [hstep]
      obtain ⟨kg', hmem, hkey, ha'⟩ := mem_addRecipient_mono hkg ha (webhookKey w) w b
      obtain ⟨kg2, hmem2, hkey2, ha2⟩ := ih _ kg' hmem a ha'
      exact ⟨kg2, hmem2, hkey2.trans hkey, ha2⟩

theorem mem_recipientsByWebhook_of_accepted {f : Str → Option Webhook}
    (rs : List Str) :
    ∀ gs : List (Str × Group), ∀ a w, f a = some w → a ∈ rs →
      ∃ kg ∈ rs.foldl (groupStep f) gs, kg.1 = webhookKey w ∧
        a ∈ kg.2.recipients := by
  induction rs with
  | nil => intro gs a w _ ha; cases ha
  | cons b rs ih =>
    intro gs a w hfa ha
    rw [List.foldl_cons]
    by_cases hab : a = b
    · subst hab
      have hstep : groupStep f gs a = addRecipient gs (webhookKey w) w a := by
        simp [groupStep, hfa]
      rw [hstep]
      obtain ⟨kg, hmem, hkey, hain⟩ :=
        mem_addRecipient_self gs (webhookKey w) w a
      obtain ⟨kg', hmem', hkey', ha'⟩ :=
        mem_fold_mono rs _ kg hmem a hain
      exact ⟨kg', hmem', hkey'.trans hkey, ha'⟩
    · have ha' : a ∈ rs := by
        rcases List.mem_cons.mp ha with h | h
        · exact absurd h hab
        · exact h
      exact ih _ a w hfa ha'

theorem eq_of_fst_eq_of_nodup_keys {l : List (Str × Group)}
    (hnd : (l.map Prod.fst).Nodup) {x y : Str × Group}
    (hx : x ∈ l) (hy : y ∈ l) (hfst : x.1 = y.1) : x = y := by
  induction l with
  | nil => cases hx
  | cons z rest ih =>
    simp only [List.map_cons, List.nodup_cons] at hnd
    rcases List.mem_cons.mp hx with hx1 | hx2 <;>
      rcases List.mem_cons.mp hy with hy1 | hy2
    · exact hx1.trans hy1.symm
    · exfalso
      apply hnd.1
      have hmy : y.1 ∈ rest.map Prod.fst := List.mem_map_of_mem Prod.fst hy2
      have hz : z.1 = y.1 := by rw [← hx1, hfst]
      rw [hz]
      exact hmy
    · exfalso
      apply hnd.1
      have hmx : x.1 ∈ rest.map Prod.fst := List.mem_map_of_mem Prod.fst hx2
      have hz : z.1 = x.1 := by rw [← hy1, ← hfst]
      rw [hz]
      exact hmx
    · exact ih hnd.2 hx2 hy2

/-- C5: the delivery groups built by `forwardEmail` partition the accepted
recipients exactly — the grouped recipients are (as a multiset) the accepted
sublist of `rcptTo`, every accepted recipient lies in exactly one group —
and two accepted recipients land in the same group iff their resolved
`{url, authUser, authPass}` targets are field-wise equal. -/
theorem claim_C5_grouping_partition (f : Str → Option Webhook) (rs : List Str) :
    List.Perm (groupedRecipients (recipientsByWebhook f rs))
      (rs.filter (fun a => (f a).isSome)) ∧
    (∀ a w, f a = some w → a ∈ rs →
      ∃ kg ∈ recipientsByWebhook f rs, a ∈ kg.2.recipients ∧
        ∀ kg' ∈ recipientsByWebhook f rs, a ∈ kg'.2.recipients → kg' = kg) ∧
    (∀ a b wa wb, f a = some wa → f b = some wb → a ∈ rs → b ∈ rs →
      ((∃ kg ∈ recipientsByWebhook f rs,
          a ∈ kg.2.recipients ∧ b ∈ kg.2.recipients) ↔ wa = wb)) := by
  obtain ⟨hnodup, hentries⟩ := inv_recipientsByWebhook f rs
  refine ⟨?_, ?_, ?_⟩
  · simpa [groupedRecipients] using groupedRecipients_fold f rs []
  · intro a w hfa ha
    obtain ⟨kg, hmem, hkey, hain⟩ :=
      mem_recipientsByWebhook_of_accepted rs [] a w hfa ha
    refine ⟨kg, hmem, hain, ?_⟩
    intro kg' hmem' hain'
    have h1 := hentries kg' hmem'
    have h2 := (h1.2 a hain').symm.trans hfa
    have hkey' : kg'.1 = webhookKey w := by
      rw [h1.1, Option.some.inj h2]
    exact eq_of_fst_eq_of_nodup_keys hnodup hmem' hmem (hkey'.trans hkey.symm)
  · intro a b wa wb hfa hfb ha hb
    constructor
    · rintro ⟨kg, hmem, hain, hbin⟩
      have h1 := hentries kg hmem
      have h2 := (h1.2 a hain).symm.trans hfa
      have h3 := (h1.2 b hbin).symm.trans hfb
      rw [← Option.some.inj h2, ← Option.some.inj h3]
    · intro hW
      obtain ⟨kga, hmema, hkeya, haina⟩ :=
        mem_recipientsByWebhook_of_accepted rs [] a wa hfa ha
      obtain ⟨kgb, hmemb, hkeyb, hbinb⟩ :=
        mem_recipientsByWebhook_of_accepted rs [] b wb hfb hb
      have : kga = kgb :=
        eq_of_fst_eq_of_nodup_keys hnodup hmema hmemb
          (by rw [hkeya, hkeyb, hW])
      exact ⟨kga, hmema, haina, this ▸ hbinb⟩

/-! ### Claims C8 and C9: the reputation check -/

/-- C8 as stated is false: the code's test is prefix-based, not range-based.
`127.0.0.2` lies in the loopback range `127.0.0.0/8` but is not the literal
`127.0.0.1`, so the code does issue zone lookups for it; conversely
`172.200.0.1` is a public address (outside `172.16.0.0/12`) but matches the
`172.` prefix, so the code issues no lookups for it. -/
theorem claim_C8_counterexample :
    specPrivateOrLoopback (strLit "127.0.0.2") = true ∧
    dnsblQueries (strLit "127.0.0.2") ≠ [] ∧
    specPrivateOrLoopback (strLit "172.200.0.1") = false ∧
    dnsblQueries (strLit "172.200.0.1") = [] := by decide

/-- C8 (amended): addresses starting with `10.`, `192.168.` or `172.`, or
equal to `127.0.0.1`, get no zone lookups and the clean result; for every
other address one lookup per configured zone is issued, keyed by the
octet-reversed address concatenated with the zone name. -/
theorem claim_C8_private_prefix_skip (ip : Str) (resolves : Str → Bool)
    (timedOut : Bool) :
    (isPrivateIP ip = true →
      checkDNSBL ip resolves timedOut = ⟨false, []⟩ ∧ dnsblQueries ip = []) ∧
    (isPrivateIP ip = false →
      dnsblQueries ip = DNSBL_SERVICES.map (fun z => reverseIP ip ++ '.' :: z) ∧
      (dnsblQueries ip).length = DNSBL_SERVICES.length ∧
      (timedOut = false →
        checkDNSBL ip resolves timedOut =
          ⟨decide (0 < (DNSBL_SERVICES.filter
              (fun z => resolves (reverseIP ip ++ '.' :: z))).length),
            DNSBL_SERVICES.filter (fun z => resolves (reverseIP ip ++ '.' :: z))⟩)) := by
  constructor
  · intro hp
    constructor
    · unfold checkDNSBL
      rw [if_pos hp]
    · unfold dnsblQueries
      rw [if_pos hp]
  · intro hp
    refine ⟨?_, ?_, ?_⟩
    · unfold dnsblQueries
      rw [if_neg (by simp [hp])]
    · unfold dnsblQueries
      rw [if_neg (by simp [hp])]
      exact List.length_map _ _
    · intro ht
      unfold checkDNSBL
      rw [if_neg (by simp [hp]), ht, if_neg (by simp)]

/-- Witness for the amended C8: `10.0.0.1` is skipped with a clean result;
`8.8.8.8` gets exactly the two configured zone lookups. -/
theorem claim_C8_private_prefix_skip_witness :
    (checkDNSBL (strLit "10.0.0.1") (fun _ => false) false = ⟨false, []⟩ ∧
      dnsblQueries (strLit "10.0.0.1") = []) ∧
    dnsblQueries (strLit "8.8.8.8") =
      DNSBL_SERVICES.map (fun z => reverseIP (strLit "8.8.8.8") ++ '.' :: z) :=
  ⟨(claim_C8_private_prefix_skip (strLit "10.0.0.1") (fun _ => false) false).1
      (by decide),
   ((claim_C8_private_prefix_skip (strLit "8.8.8.8") (fun _ => false) false).2
      (by decide)).1⟩

/-- C9: when the 3-second aggregate timeout wins the race, `checkDNSBL`
resolves (it is a total function — no input makes it reject) with the clean
result `{isListed: false, listings: []}`, discarding whatever the individual
zone lookups would have found (`resolves` is universally quantified). -/
theorem claim_C9_timeout_clean (ip : Str) (resolves : Str → Bool) :
    checkDNSBL ip resolves true = ⟨false, []⟩ := by
  unfold checkDNSBL
  by_cases hp : isPrivateIP ip = true
  · rw [if_pos hp]
  · rw [if_neg hp, if_pos rfl]

/-- C6 as stated is false on the unparsable-response leg: an unparsable
status line does default the score to `0`, but the fired-test list is taken
from the first comma-containing line of the response and can be nonempty.
Response `"Hello, world"` has no parsable status line yet yields tests
`["Hello", "world"]`. -/
theorem claim_C6_counterexample :
    (checkSpamAssassin cfgDemo [] (.response (strLit "Hello, world"))).score = 0 ∧
    (checkSpamAssassin cfgDemo [] (.response (strLit "Hello, world"))).tests =
      [strLit "Hello", strLit "world"] ∧
    (checkSpamAssassin cfgDemo [] (.response (strLit "Hello, world"))).tests ≠ [] := by
  decide

theorem dispatchStage_forwarded (raw : Str) (env : Envelope) (sess : Session)
    (fetchO : Webhook → FetchOutcome) (n : Nat) :
    (dispatchStage raw env sess fetchO n).forwarded = some raw := by
  cases h : (forwardEmail raw env sess fetchO).result <;>
    simp [dispatchStage, h]

theorem dispatchStage_scorerCalls (raw : Str) (env : Envelope) (sess : Session)
    (fetchO : Webhook → FetchOutcome) (n : Nat) :
    (dispatchStage raw env sess fetchO n).scorerCalls = n := by
  cases h : (forwardEmail raw env sess fetchO).result <;>
    simp [dispatchStage, h]

theorem dispatchStage_deliveries (raw : Str) (env : Envelope) (sess : Session)
    (fetchO : Webhook → FetchOutcome) (n : Nat) :
    (dispatchStage raw env sess fetchO n).deliveries =
      (forwardEmail raw env sess fetchO).issued := by
  cases h : (forwardEmail raw env sess fetchO).result <;>
    simp [dispatchStage, h]

/-- C6 (amended): the scorer client is a total function of the round-trip
outcome (never throws); connection error and timeout degrade to
`{score: 0, tests: []}`; an unparsable status line degrades the score to `0`
and the threshold to the configured flag threshold (the fired-test list is
still extracted from the first comma-containing line and can be nonempty);
and with the scorer unreachable the message still reaches delivery whenever
the remaining DNSBL penalty stays below the reject threshold. -/
theorem claim_C6_failopen_amended (cfg : Config) (raw : Str) :
    checkSpamAssassin cfg raw .connError = ⟨0, cfg.spamThreshold, []⟩ ∧
    checkSpamAssassin cfg raw .timeout = ⟨0, cfg.spamThreshold, []⟩ ∧
    (∀ resp,
      searchSpam (((splitCRLF resp).find?
        (fun l => (strLit "Spam:").isPrefixOf l)).getD []) = none →
      (checkSpamAssassin cfg raw (.response resp)).score = 0 ∧
      (checkSpamAssassin cfg raw (.response resp)).threshold = cfg.spamThreshold) ∧
    (∀ (sess : Session) (env : Envelope) (fetchO : Webhook → FetchOutcome),
      cfg.spamCheck = true → raw ≠ [] → (findSep raw).isSome = true →
      ¬ cfg.spamReject ≤
        (applyDnsblPenalty (checkSpamAssassin cfg raw .connError)
          sess.dnsblResult).score →
      (onData cfg sess env raw .connError fetchO).forwarded ≠ none) := by
  refine ⟨rfl, rfl, ?_, ?_⟩
  · intro resp h
    constructor
    · simp [checkSpamAssassin, parseSpamdResponse, h]
    · simp [checkSpamAssassin, parseSpamdResponse, h]
  · intro sess env fetchO hspam hraw hsep hscore
    obtain ⟨i, hi⟩ := Option.isSome_iff_exists.mp hsep
    unfold onData
    rw [if_neg hraw, hi]
    rw [if_neg (by simp), if_pos hspam, if_neg hscore]
    rw [dispatchStage_forwarded]
    simp

/-- Witness: C6 (amended) instantiated at a concrete session where the
remote address was not listed: the scorer being unreachable leaves the
score at `0 < 10` and the message reaches delivery. -/
theorem claim_C6_failopen_amended_witness :
    (onData cfgDemo ⟨none, fun _ => none⟩ ⟨some (strLit "s@x.com"), []⟩
      (strLit "A: 1\r\n\r\nBody") .connError
      (fun _ => .connRefused)).forwarded ≠ none :=
  (claim_C6_failopen_amended cfgDemo (strLit "A: 1\r\n\r\nBody")).2.2.2
    ⟨none, fun _ => none⟩ ⟨some (strLit "s@x.com"), []⟩ (fun _ => .connRefused)
    rfl (by decide) (by decide) (by decide)

theorem applyDnsblPenalty_score (spam : SpamResult) (d : Option DnsblResult) :
    (applyDnsblPenalty spam d).score = spam.score + 3 * (listedZoneCount d : ℚ) := by
  cases d with
  | none => simp [applyDnsblPenalty, listedZoneCount]
  | some dr =>
    by_cases h : dr.isListed = true
    · simp [applyDnsblPenalty, listedZoneCount, h]
    · simp only [Bool.not_eq_true] at h
      simp [applyDnsblPenalty, listedZoneCount, h]

/-- C3: the final score is the scorer's score plus `3.0` times the listed
zone count; it is monotone non-decreasing in that count; when at least one
zone is listed the synthetic `DNSBL_LISTED(...)` token naming the zones is
appended to the fired-test list; and `checkDNSBL` results are listed exactly
when their zone list is nonempty. -/
theorem claim_C3_score_composition (spam : SpamResult) (d : Option DnsblResult) :
    (applyDnsblPenalty spam d).score = spam.score + 3 * (listedZoneCount d : ℚ) ∧
    (∀ d' : Option DnsblResult, listedZoneCount d ≤ listedZoneCount d' →
      (applyDnsblPenalty spam d).score ≤ (applyDnsblPenalty spam d').score) ∧
    (∀ dr : DnsblResult, d = some dr → dr.isListed = true →
      (applyDnsblPenalty spam d).tests = spam.tests ++
        [strLit "DNSBL_LISTED(" ++ joinSep [','] dr.listings ++ [')']]) ∧
    (∀ (ip : Str) (resolves : Str → Bool) (timedOut : Bool),
      ((checkDNSBL ip resolves timedOut).isListed = true ↔
        (checkDNSBL ip resolves timedOut).listings ≠ [])) := by
  refine ⟨applyDnsblPenalty_score spam d, ?_, ?_, ?_⟩
  · intro d' hle
    rw [applyDnsblPenalty_score, applyDnsblPenalty_score]
    have hc : (listedZoneCount d : ℚ) ≤ (listedZoneCount d' : ℚ) :=
      Nat.cast_le.mpr hle
    have h3 : (3 : ℚ) * (listedZoneCount d : ℚ) ≤ 3 * (listedZoneCount d' : ℚ) :=
      mul_le_mul_of_nonneg_left hc (by norm_num)
    exact add_le_add_left h3 spam.score
  · intro dr hd hl
    subst hd
    simp [applyDnsblPenalty, hl]
  · intro ip resolves timedOut
    unfold checkDNSBL
    by_cases hp : isPrivateIP ip = true
    · rw [if_pos hp]
      simp
    · rw [if_neg hp]
      by_cases ht : timedOut = true
      · rw [if_pos ht]
        simp
      · rw [if_neg ht]
        simp [List.length_pos]

/-- Witness: C3 at a concrete scorer result and one listed zone. -/
theorem claim_C3_score_composition_witness :
    (applyDnsblPenalty spamDemo (some dnsblDemo)).score =
      spamDemo.score + 3 * (listedZoneCount (some dnsblDemo) : ℚ) ∧
    (applyDnsblPenalty spamDemo (some dnsblDemo)).tests = spamDemo.tests ++
      [strLit "DNSBL_LISTED(" ++ joinSep [','] dnsblDemo.listings ++ [')']] :=
  ⟨(claim_C3_score_composition spamDemo (some dnsblDemo)).1,
   (claim_C3_score_composition spamDemo (some dnsblDemo)).2.2.1 dnsblDemo rfl rfl⟩

/-- Witness: C5 at two concrete recipients resolving to the same
`{url, authUser, authPass}` tuple — they land in one group. -/
theorem claim_C5_grouping_partition_witness :
    ∃ kg ∈ recipientsByWebhook grpF grpRs,
      strLit "a@x.com" ∈ kg.2.recipients ∧ strLit "b@x.com" ∈ kg.2.recipients :=
  ((claim_C5_grouping_partition grpF grpRs).2.2 (strLit "a@x.com")
      (strLit "b@x.com") grpW grpW (by decide) (by decide) (by decide)
      (by decide)).mpr rfl

/-! ### Claim C7: header insertion before the blank line -/

theorem findSep_drop :
    ∀ (s : Str) (i : Nat), findSep s = some i → ∃ B, s.drop i = crlfcrlf ++ B := by
  intro s
  induction s with
  | nil => intro i h; cases h
  | cons c rest ih =>
    intro i h
    unfold findSep at h
    by_cases hp : crlfcrlf.isPrefixOf (c :: rest) = true
    · rw [if_pos hp] at h
      have hi : (0 : Nat) = i := Option.some.inj h
      obtain ⟨B, hB⟩ := List.isPrefixOf_iff_prefix.mp hp
      exact ⟨B, by rw [← hi, List.drop_zero, ← hB]⟩
    · rw [if_neg hp] at h
      cases hf : findSep rest with
      | none => rw [hf] at h; cases h
      | some j =>
        rw [hf] at h
        have hj : j + 1 = i := Option.some.inj h
        obtain ⟨B, hB⟩ := ih j hf
        refine ⟨B, ?_⟩
        rw [← hj, List.drop_succ_cons]
        exact hB

/-- C7: when the message has a `\r\n\r\n` separator (at index `i`), the
augmented message is the original header block, then the inserted
`X-Spam-*` lines, then the original bytes from the blank line onward,
unchanged; the `X-Spam-DNSBL` line is present exactly when the address was
listed. -/
theorem claim_C7_header_insertion (cfg : Config) (raw : Str) (d : DnsblResult)
    (sp : SpamResult) (i : Nat) (h : findSep raw = some i) :
    addSpamHeaders cfg raw d sp =
      raw.take i ++ strLit "\r\n" ++
        joinSep (strLit "\r\n") (spamHeaderLines cfg d sp) ++
        strLit "\r\n" ++ raw.drop i ∧
    (∃ B, raw.drop i = crlfcrlf ++ B ∧ raw = raw.take i ++ (crlfcrlf ++ B)) ∧
    (d.isListed = true → spamHeaderLines cfg d sp =
      [strLit "X-Spam-Score: " ++ ratToStr sp.score,
       strLit "X-Spam-Status: " ++
         (if cfg.spamThreshold ≤ sp.score then strLit "Yes" else strLit "No") ++
         strLit ", score=" ++ ratToStr sp.score ++ strLit " required=" ++
         ratToStr cfg.spamThreshold,
       strLit "X-Spam-Tests: " ++ joinSep (strLit ", ") sp.tests,
       strLit "X-Spam-DNSBL: Listed on " ++ joinSep (strLit ", ") d.listings]) ∧
    (d.isListed = false → spamHeaderLines cfg d sp =
      [strLit "X-Spam-Score: " ++ ratToStr sp.score,
       strLit "X-Spam-Status: " ++
         (if cfg.spamThreshold ≤ sp.score then strLit "Yes" else strLit "No") ++
         strLit ", score=" ++ ratToStr sp.score ++ strLit " required=" ++
         ratToStr cfg.spamThreshold,
       strLit "X-Spam-Tests: " ++ joinSep (strLit ", ") sp.tests]) := by
  refine ⟨?_, ?_, ?_, ?_⟩
  · unfold addSpamHeaders
    rw [h]
  · obtain ⟨B, hB⟩ := findSep_drop raw i h
    exact ⟨B, hB, by rw [← hB, List.take_append_drop]⟩
  · intro hl
    simp [spamHeaderLines, hl]
  · intro hl
    simp [spamHeaderLines, hl]

/-- Witness: C7 at the concrete message `"A: 1\r\n\r\nBody"` (separator at
index 4) with an unlisted address. -/
theorem claim_C7_header_insertion_witness :
    addSpamHeaders cfgDemo (strLit "A: 1\r\n\r\nBody") ⟨false, []⟩ spamDemo =
      (strLit "A: 1\r\n\r\nBody").take 4 ++ strLit "\r\n" ++
        joinSep (strLit "\r\n")
          (spamHeaderLines cfgDemo ⟨false, []⟩ spamDemo) ++
        strLit "\r\n" ++ (strLit "A: 1\r\n\r\nBody").drop 4 :=
  (claim_C7_header_insertion cfgDemo (strLit "A: 1\r\n\r\nBody") ⟨false, []⟩
    spamDemo 4 (by decide)).1

/-! ### Claims C2, C10 and C1: reject threshold, disabled spam check, and
delivery outcome aggregation -/

/-- C2: whenever the combined score (scorer score plus DNSBL penalty)
reaches the reject threshold, the data stage replies with a permanent 550
rejection, `forwardEmail` is never invoked and no delivery request is
issued. -/
theorem claim_C2_reject_threshold (cfg : Config) (sess : Session)
    (env : Envelope) (raw : Str) (spamdO : SpamdOutcome)
    (fetchO : Webhook → FetchOutcome) (hspam : cfg.spamCheck = true)
    (hscore : cfg.spamReject ≤
      (applyDnsblPenalty (checkSpamAssassin cfg raw spamdO)
        sess.dnsblResult).score) :
    (∃ m, (onData cfg sess env raw spamdO fetchO).reply = .reject 550 m) ∧
    (onData cfg sess env raw spamdO fetchO).deliveries = [] ∧
    (onData cfg sess env raw spamdO fetchO).forwarded = none := by
  unfold onData
  by_cases h1 : raw = []
  · rw [if_pos h1]
    exact ⟨⟨strLit "Empty message", rfl⟩, rfl, rfl⟩
  · rw [if_neg h1]
    by_cases h2 : (findSep raw).isNone = true
    · rw [if_pos h2]
      exact ⟨⟨strLit "Malformed message: missing headers", rfl⟩, rfl, rfl⟩
    · rw [if_neg h2, if_pos hspam, if_pos hscore]
      exact ⟨⟨strLit "Message rejected as spam", rfl⟩, rfl, rfl⟩

/-- Witness: C2 with the scorer unreachable (daemon score `0`) and a DNSBL
penalty of `12 ≥ 10`: the message is rejected and nothing is delivered. -/
theorem claim_C2_reject_threshold_witness :
    (∃ m, (onData cfgDemo sessSpam ⟨some (strLit "s@x.com"), []⟩
      (strLit "A: 1\r\n\r\nB") .connError
      (fun _ => .response 200 [])).reply = .reject 550 m) ∧
    (onData cfgDemo sessSpam ⟨some (strLit "s@x.com"), []⟩
      (strLit "A: 1\r\n\r\nB") .connError
      (fun _ => .response 200 [])).deliveries = [] ∧
    (onData cfgDemo sessSpam ⟨some (strLit "s@x.com"), []⟩
      (strLit "A: 1\r\n\r\nB") .connError
      (fun _ => .response 200 [])).forwarded = none :=
  claim_C2_reject_threshold cfgDemo sessSpam ⟨some (strLit "s@x.com"), []⟩
    (strLit "A: 1\r\n\r\nB") .connError (fun _ => .response 200 [])
    rfl (by
      simp [cfgDemo, sessSpam, checkSpamAssassin, applyDnsblPenalty]
      norm_num)

/-- C10: with spam checking disabled, every connection is accepted with no
reputation lookups, the scorer is never called, and the buffer handed to
delivery is exactly the received buffer (no headers added). -/
theorem claim_C10_spamcheck_disabled (cfg : Config) (sess : Session)
    (env : Envelope) (raw ip : Str) (resolves : Str → Bool) (timedOut : Bool)
    (spamdO : SpamdOutcome) (fetchO : Webhook → FetchOutcome)
    (hoff : cfg.spamCheck = false) :
    onConnect cfg ip resolves timedOut = ⟨true, []⟩ ∧
    (onData cfg sess env raw spamdO fetchO).scorerCalls = 0 ∧
    (raw ≠ [] → (findSep raw).isSome = true →
      (onData cfg sess env raw spamdO fetchO).forwarded = some raw ∧
      (onData cfg sess env raw spamdO fetchO).deliveries =
        (forwardEmail raw env sess fetchO).issued) := by
  refine ⟨?_, ?_, ?_⟩
  · unfold onConnect
    rw [if_neg (by simp [hoff])]
  · unfold onData
    by_cases h1 : raw = []
    · rw [if_pos h1]
    · rw [if_neg h1]
      by_cases h2 : (findSep raw).isNone = true
      · rw [if_pos h2]
      · rw [if_neg h2, if_neg (by simp [hoff])]
        exact dispatchStage_scorerCalls raw env sess fetchO 0
  · intro hraw hsep
    obtain ⟨i, hi⟩ := Option.isSome_iff_exists.mp hsep
    unfold onData
    rw [if_neg hraw, hi, if_neg (by simp), if_neg (by simp [hoff])]
    exact ⟨dispatchStage_forwarded raw env sess fetchO 0,
      dispatchStage_deliveries raw env sess fetchO 0⟩

/-- Witness: C10 at a concrete disabled-spam configuration. -/
theorem claim_C10_spamcheck_disabled_witness :
    onConnect cfgOff (strLit "1.2.3.4") (fun _ => true) false = ⟨true, []⟩ ∧
    (onData cfgOff sess550 env550 raw550 .connError
      (fun _ => .response 200 [])).scorerCalls = 0 ∧
    ((onData cfgOff sess550 env550 raw550 .connError
        (fun _ => .response 200 [])).forwarded = some raw550 ∧
      (onData cfgOff sess550 env550 raw550 .connError
        (fun _ => .response 200 [])).deliveries =
        (forwardEmail raw550 env550 sess550 (fun _ => .response 200 [])).issued) :=
  have h := claim_C10_spamcheck_disabled cfgOff sess550 env550 raw550
    (strLit "1.2.3.4") (fun _ => true) false .connError
    (fun _ => .response 200 []) rfl
  ⟨h.1, h.2.1, h.2.2 (by decide) (by decide)⟩

theorem forwardToWebhook_ok_iff (w : Webhook) (o : FetchOutcome) :
    forwardToWebhook w o = .ok () ↔ is2xx o = true := by
  cases o with
  | response st stext =>
    by_cases h : 200 ≤ st ∧ st < 300
    · simp [forwardToWebhook, is2xx, h]
    · simp [forwardToWebhook, is2xx, h]
  | connRefused => simp [forwardToWebhook, is2xx]
  | netTimeout => simp [forwardToWebhook, is2xx]
  | otherError m => simp [forwardToWebhook, is2xx]

theorem firstErr_ok_iff (l : List (Except Str Unit)) :
    firstErr l = .ok () ↔ ∀ e ∈ l, e = .ok () := by
  induction l with
  | nil => simp [firstErr]
  | cons e rest ih =>
    cases e with
    | ok u =>
      cases u
      simp [firstErr, ih]
    | error m => simp [firstErr]

theorem classifyForwardError_ne_accept (m : Str) :
    classifyForwardError m ≠ .accept := by
  unfold classifyForwardError
  split_ifs <;> simp

theorem classifyForwardError_cases (m : Str) :
    (strContains m (strLit "timeout") = true →
      classifyForwardError m =
        .reject 451 (strLit "Temporary failure, please retry")) ∧
    (strContains m (strLit "timeout") = false →
      strContains m (strLit "HTTP") = true →
      classifyForwardError m =
        .reject 451 (strLit "Webhook temporarily unavailable")) ∧
    (strContains m (strLit "timeout") = false →
      strContains m (strLit "HTTP") = false →
      classifyForwardError m =
        .reject 550 (strLit "Failed to process message")) := by
  unfold classifyForwardError
  refine ⟨fun h => by rw [if_pos h],
    fun h1 h2 => by rw [if_neg (by simp [h1]), if_pos h2],
    fun h1 h2 => by rw [if_neg (by simp [h1]), if_neg (by simp [h2])]⟩

theorem dispatch_reply_cases (raw : Str) (env : Envelope) (sess : Session)
    (fetchO : Webhook → FetchOutcome) (n : Nat) :
    ((forwardEmail raw env sess fetchO).result = .ok () →
      (dispatchStage raw env sess fetchO n).reply = .accept) ∧
    (∀ m, (forwardEmail raw env sess fetchO).result = .error m →
      (dispatchStage raw env sess fetchO n).reply = classifyForwardError m) := by
  constructor
  · intro h
    simp [dispatchStage, h]
  · intro m h
    simp [dispatchStage, h]

theorem dispatchStage_outcome (raw : Str) (env : Envelope) (sess : Session)
    (fetchO : Webhook → FetchOutcome) (n : Nat)
    (hfrom : ∃ a, env.mailFrom = some a ∧ a ≠ []) (hrcpt : env.rcptTo ≠ []) :
    ((dispatchStage raw env sess fetchO n).reply = .accept ↔
      ∀ w ∈ (dispatchStage raw env sess fetchO n).deliveries,
        is2xx (fetchO w) = true) ∧
    (∀ m, firstErr ((dispatchStage raw env sess fetchO n).deliveries.map
        (fun w => forwardToWebhook w (fetchO w))) = .error m →
      (dispatchStage raw env sess fetchO n).reply = classifyForwardError m) := by
  obtain ⟨a, ha, hane⟩ := hfrom
  have hfw : forwardEmail raw env sess fetchO =
      ⟨firstErr (((recipientsByWebhook sess.webhooksByRecipient env.rcptTo).map
          (fun kg => kg.2.webhook)).map (fun w => forwardToWebhook w (fetchO w))),
        (recipientsByWebhook sess.webhooksByRecipient env.rcptTo).map
          (fun kg => kg.2.webhook)⟩ := by
    simp only [forwardEmail, ha, if_neg hane, if_neg hrcpt]
  have hdel := dispatchStage_deliveries raw env sess fetchO n
  rw [hfw] at hdel
  have hres : (forwardEmail raw env sess fetchO).result =
      firstErr (((recipientsByWebhook sess.webhooksByRecipient env.rcptTo).map
        (fun kg => kg.2.webhook)).map (fun w => forwardToWebhook w (fetchO w))) := by
    rw [hfw]
  constructor
  · constructor
    · intro hacc w hw
      rw [hdel] at hw
      cases he : firstErr (((recipientsByWebhook sess.webhooksByRecipient
          env.rcptTo).map (fun kg => kg.2.webhook)).map
          (fun w => forwardToWebhook w (fetchO w))) with
      | ok u =>
        cases u
        have hall := (firstErr_ok_iff _).mp he
        exact (forwardToWebhook_ok_iff w (fetchO w)).mp
          (hall _ (List.mem_map_of_mem _ hw))
      | error m =>
        exfalso
        have hrep := (dispatch_reply_cases raw env sess fetchO n).2 m
          (by rw [hres, he])
        rw [hacc] at hrep
        exact classifyForwardError_ne_accept m hrep.symm
    · intro hall
      refine (dispatch_reply_cases raw env sess fetchO n).1 ?_
      rw [hres]
      refine (firstErr_ok_iff _).mpr ?_
      intro e he
      obtain ⟨w, hw, hwe⟩ := List.mem_map.mp he
      rw [← hwe]
      exact (forwardToWebhook_ok_iff w (fetchO w)).mpr (hall w (by rw [hdel]; exact hw))
  · intro m hm
    rw [hdel] at hm
    exact (dispatch_reply_cases raw env sess fetchO n).2 m (by rw [hres]; exact hm)

/-- C1 as stated is false: a failed delivery group does not always produce a
transient (4xx) reply. With one group whose fetch is connection-refused, the
surfaced node-fetch message contains neither `timeout` nor `HTTP` (the url
is lower-case), so the catch block's final branch reports the permanent
reply `550 Failed to process message` — a 5xx, not 4xx, code. -/
theorem claim_C1_counterexample :
    (onData cfgOff sess550 env550 raw550 .connError
        (fun _ => .connRefused)).deliveries = [w550] ∧
    is2xx FetchOutcome.connRefused = false ∧
    (onData cfgOff sess550 env550 raw550 .connError
        (fun _ => .connRefused)).reply =
      .reject 550 (strLit "Failed to process message") ∧
    ¬ (400 ≤ 550 ∧ 550 < 500) := by decide

/-- C1 (amended): for a message that reaches dispatch with a valid envelope,
the message is reported accepted iff every issued delivery request returned
2xx; otherwise the reply is the classification of the first failing group's
error message: `451` when the message contains `timeout` (delivery timeout)
or `HTTP` (non-2xx status), `550` otherwise (e.g. connection refused). -/
theorem claim_C1_outcome_amended (cfg : Config) (sess : Session)
    (env : Envelope) (raw : Str) (spamdO : SpamdOutcome)
    (fetchO : Webhook → FetchOutcome)
    (hfrom : ∃ a, env.mailFrom = some a ∧ a ≠ [])
    (hrcpt : env.rcptTo ≠ [])
    (hreach : (onData cfg sess env raw spamdO fetchO).forwarded ≠ none) :
    ((onData cfg sess env raw spamdO fetchO).reply = .accept ↔
      ∀ w ∈ (onData cfg sess env raw spamdO fetchO).deliveries,
        is2xx (fetchO w) = true) ∧
    (∀ m, firstErr ((onData cfg sess env raw spamdO fetchO).deliveries.map
        (fun w => forwardToWebhook w (fetchO w))) = .error m →
      (onData cfg sess env raw spamdO fetchO).reply = classifyForwardError m) ∧
    (∀ m, (strContains m (strLit "timeout") = true →
        classifyForwardError m =
          .reject 451 (strLit "Temporary failure, please retry")) ∧
      (strContains m (strLit "timeout") = false →
        strContains m (strLit "HTTP") = true →
        classifyForwardError m =
          .reject 451 (strLit "Webhook temporarily unavailable")) ∧
      (strContains m (strLit "timeout") = false →
        strContains m (strLit "HTTP") = false →
        classifyForwardError m =
          .reject 550 (strLit "Failed to process message"))) := by
  have hmain : ((onData cfg sess env raw spamdO fetchO).reply = .accept ↔
      ∀ w ∈ (onData cfg sess env raw spamdO fetchO).deliveries,
        is2xx (fetchO w) = true) ∧
      (∀ m, firstErr ((onData cfg sess env raw spamdO fetchO).deliveries.map
          (fun w => forwardToWebhook w (fetchO w))) = .error m →
        (onData cfg sess env raw spamdO fetchO).reply = classifyForwardError m) := by
    unfold onData at hreach ⊢
    by_cases h1 : raw = []
    · rw [if_pos h1] at hreach
      exact absurd rfl hreach
    · rw [if_neg h1] at hreach ⊢
      by_cases h2 : (findSep raw).isNone = true
      · rw [if_pos h2] at hreach
        exact absurd rfl hreach
      · rw [if_neg h2] at hreach ⊢
        by_cases h3 : cfg.spamCheck = true
        · rw [if_pos h3] at hreach ⊢
          by_cases h4 : cfg.spamReject ≤
              (applyDnsblPenalty (checkSpamAssassin cfg raw spamdO)
                sess.dnsblResult).score
          · rw [if_pos h4] at hreach
            exact absurd rfl hreach
          · rw [if_neg h4]
            exact dispatchStage_outcome _ env sess fetchO 1 hfrom hrcpt
        · rw [if_neg h3]
          exact dispatchStage_outcome raw env sess fetchO 0 hfrom hrcpt
  exact ⟨hmain.1, hmain.2, fun m => classifyForwardError_cases m⟩

/-- Witness: C1 (amended) with one group and an all-2xx fetch oracle — the
message is reported accepted. -/
theorem claim_C1_outcome_amended_witness :
    (onData cfgOff sess550 env550 raw550 .connError
      (fun _ => .response 200 [])).reply = .accept :=
  ((claim_C1_outcome_amended cfgOff sess550 env550 raw550 .connError
      (fun _ => .response 200 [])
      ⟨strLit "s@example.com", rfl, by decide⟩ (by decide) (by decide)).1).mpr
    (by decide)

end ActionSMTP
